import Mathlib

/-!
Shallow embedding of the antidrin recovery dashboard's value/fee pipeline:
the Value Parser (`src/lib/valueParsing.ts`), the Fee Calculator
(`handleServiceFeeToggle` in `App.tsx` and the derived amounts in
`OperationConfigurationCard.tsx`), delegation readiness
(`delegationReadyMap` in `App.tsx` / `getValidWallets` in
`BatchExecutor.tsx`), the Batch Executor (`executeBatchOperations` in
`src/lib/batchOps.ts`), the Batch Operation Builder (`executeBatch` in
`BatchExecutor.tsx`), and the Post-Execution Distributor
(`distributeRecoveredTokens` in `BatchExecutor.tsx`).

JavaScript strings are modelled as Lean `String`, `bigint` as `ℤ`
(with `/` on bigints modelled as truncating division `Int.tdiv`),
`number` percentages as `ℚ`, and optional fields as `Option`.
-/

namespace Antidrain

/-! ### JavaScript primitives: whitespace, trim, BigInt(string) -/

/-- The JS WhiteSpace and LineTerminator characters recognised by
`String.prototype.trim` (ECMA-262 TrimString). -/
def jsWhitespaceChars : List Char :=
  [' ', '\t', '\n', '\r', '\u000B', '\u000C', ' ', ' ',
   ' ', ' ', ' ', ' ', ' ', ' ', ' ',
   ' ', ' ', ' ', ' ', ' ', ' ', ' ',
   ' ', '　', '﻿']

/-- Model of the whitespace test used by `String.prototype.trim`. -/
def isJsWhitespace (c : Char) : Bool :=
  jsWhitespaceChars.contains c

/-- Model of `String.prototype.trim`: drop JS whitespace from both ends. -/
def jsTrim (s : String) : String :=
  ⟨((s.data.dropWhile isJsWhitespace).reverse.dropWhile isJsWhitespace).reverse⟩

/-- Decimal digit, as matched by the regex class `\d` (ASCII `0-9`). -/
def isDecDigit (c : Char) : Bool :=
  decide ('0' ≤ c) && decide (c ≤ '9')

/-- Hexadecimal digit, as matched by the regex class `[0-9a-fA-F]`. -/
def isHexDigit (c : Char) : Bool :=
  isDecDigit c || (decide ('a' ≤ c) && decide (c ≤ 'f'))
    || (decide ('A' ≤ c) && decide (c ≤ 'F'))

/-- Numeric value of a hexadecimal digit character (0 for non-digits). -/
def hexCharVal (c : Char) : ℕ :=
  if isDecDigit c then c.toNat - '0'.toNat
  else if decide ('a' ≤ c) && decide (c ≤ 'f') then c.toNat - 'a'.toNat + 10
  else if decide ('A' ≤ c) && decide (c ≤ 'F') then c.toNat - 'A'.toNat + 10
  else 0

/-- Digit of the given base (2, 8, 10 or 16), as accepted by the JS
`BigInt(string)` conversion for the corresponding literal form. -/
def isBaseDigit (b : ℕ) (c : Char) : Bool :=
  isHexDigit c && decide (hexCharVal c < b)

/-- Positional value of a digit string in base `b` (most significant first). -/
def baseVal (b : ℕ) (cs : List Char) : ℕ :=
  cs.foldl (fun a c => b * a + hexCharVal c) 0

/-- One or more digits of base `b`, interpreted positionally; `none` models a
thrown `SyntaxError`. -/
def parseBaseDigits (b : ℕ) (cs : List Char) : Option ℕ :=
  if !cs.isEmpty && cs.all (isBaseDigit b) then some (baseVal b cs) else none

/-- Model of the JS `BigInt(string)` conversion (ECMA-262 StringToBigInt):
trim, empty means 0, `0x`/`0X`/`0o`/`0O`/`0b`/`0B` prefixed literals, or an
optionally signed decimal literal; `none` models a thrown `SyntaxError`. -/
def jsBigIntOfString (s : String) : Option ℤ :=
  let cs := (jsTrim s).data
  if cs.isEmpty then some 0
  else if ['0', 'x'].isPrefixOf cs || ['0', 'X'].isPrefixOf cs then
    (parseBaseDigits 16 (cs.drop 2)).map Int.ofNat
  else if ['0', 'o'].isPrefixOf cs || ['0', 'O'].isPrefixOf cs then
    (parseBaseDigits 8 (cs.drop 2)).map Int.ofNat
  else if ['0', 'b'].isPrefixOf cs || ['0', 'B'].isPrefixOf cs then
    (parseBaseDigits 2 (cs.drop 2)).map Int.ofNat
  else if ['+'].isPrefixOf cs then
    (parseBaseDigits 10 (cs.drop 1)).map Int.ofNat
  else if ['-'].isPrefixOf cs then
    (parseBaseDigits 10 (cs.drop 1)).map (fun n => -(n : ℤ))
  else (parseBaseDigits 10 cs).map Int.ofNat

/-- Digits of `n` in base `b`, most significant first, lowercase
(`fuel`-structured recursion; callers pass `fuel ≥ n`). -/
def natToBaseAux (b : ℕ) : ℕ → ℕ → List Char
  | 0, _ => []
  | _ + 1, 0 => []
  | fuel + 1, n + 1 =>
      natToBaseAux b fuel ((n + 1) / b) ++ [Nat.digitChar ((n + 1) % b)]

/-- Model of `BigInt.prototype.toString(b)` for non-negative values:
lowercase digits, most significant first, `"0"` for zero. -/
def natToBaseChars (b n : ℕ) : List Char :=
  if n = 0 then ['0'] else natToBaseAux b n n

/-- Model of `Math.round` (round half toward positive infinity). -/
def jsRound (q : ℚ) : ℤ := ⌊q + 1 / 2⌋

/-- BigInt division `/` in JS truncates toward zero. -/
def bigIntDiv (a b : ℤ) : ℤ := a.tdiv b

/-- JS truthiness of an optional string: `undefined` and `""` are falsy. -/
def jsTruthyStr (s : Option String) : Bool :=
  match s with
  | none => false
  | some v => v != ""

/-- JS `a || b` on optional strings: the first operand when truthy, else the
second. -/
def jsOrOptStr (a b : Option String) : Option String :=
  if jsTruthyStr a then a else b

/-! ### Value Parser (`src/lib/valueParsing.ts`) -/

/-- The test of the regex literal `/^0x[0-9a-fA-F]+$/` (case-sensitive on the
`0x` prefix). -/
def regexHexTest (s : String) : Bool :=
  ['0', 'x'].isPrefixOf s.data && !(s.data.drop 2).isEmpty &&
    (s.data.drop 2).all isHexDigit

/-- The test of the regex literal `/^\d+$/`. -/
def regexDecTest (s : String) : Bool :=
  !s.data.isEmpty && s.data.all isDecDigit

/-- `isValidValueInput` from `src/lib/valueParsing.ts`. -/
def isValidValueInput (value : Option String) : Bool :=
  match value with
  | none => true
  | some v =>
    if v = "" then true
    else
      let trimmed := jsTrim v
      if trimmed = "" then true
      else if ['-'].isPrefixOf trimmed.data then false
      else if ['0', 'x'].isPrefixOf trimmed.data
          || ['0', 'X'].isPrefixOf trimmed.data then
        regexHexTest trimmed
      else
        regexDecTest trimmed

/-- `parseValueInput` from `src/lib/valueParsing.ts`; `Except.error` models a
thrown exception.  The final `error` branch is unreachable: the validity
check guarantees that the `BigInt` conversion succeeds. -/
def parseValueInput (value : Option String) : Except String ℤ :=
  match value with
  | none => .ok 0
  | some v =>
    if v = "" then .ok 0
    else
      let trimmed := jsTrim v
      if trimmed = "" then .ok 0
      else if !isValidValueInput (some trimmed) then
        .error "Invalid numeric input"
      else
        match jsBigIntOfString trimmed with
        | some n => .ok n
        | none => .error "BigInt conversion failed"

/-- `formatHexValue` from `src/lib/valueParsing.ts`:
the template `` 0x${amount.toString(16)} ``. -/
def formatHexValue (amount : ℤ) : String :=
  (if amount < 0 then "0x-" else "0x") ++ ⟨natToBaseChars 16 amount.natAbs⟩

/-- `formatDecimalValue` from `src/lib/valueParsing.ts`:
`amount.toString(10)`. -/
def formatDecimalValue (amount : ℤ) : String :=
  (if amount < 0 then "-" else "") ++ ⟨natToBaseChars 10 amount.natAbs⟩


/-! ### Data model -/

/-- `operationType` of a `WalletConfig` (`MultiWalletConfig.tsx`). -/
inductive OperationType where
  | claim
  | transfer
  | both
deriving DecidableEq

/-- `WalletConfig` (`MultiWalletConfig.tsx`), with the optional
`transferAmount` field used by `BatchExecutor.tsx` and
`OperationConfigurationCard.tsx`. -/
structure WalletConfig where
  id : String
  name : String
  network : String
  privateKey : String
  operationType : OperationType
  airdropContract : String
  tokenContract : Option String
  claimData : String
  receiverAddress : String
  claimValue : Option String
  transferAmount : Option String
  serviceFeeAmount : Option String
  delegated : Bool
  balance : Option String
deriving DecidableEq

/-- `DelegationInfo` (`DelegationPanel.tsx`); the `timestamp` and
`transactionHash` fields play no role in any computation and are omitted. -/
structure DelegationInfo where
  walletAddress : String
  batchContractAddress : String
  delegated : Bool
  signature : Option String
  expiry : Option ℕ
  nonce : Option ℕ
deriving DecidableEq

/-- `ServiceFeeConfig` (`src/config/serviceFeeConfig.ts`); `feePercentage`
is accessed as `serviceFeeConfig.feePercentage ?? 0.2` throughout, so it is
modelled as optional. -/
structure ServiceFeeConfig where
  enabled : Bool
  providerWalletAddress : String
  feePercentage : Option ℚ
deriving DecidableEq

/-- `DelegationRequest` (`src/lib/eip7702.ts`). -/
structure DelegationRequest where
  delegator : String
  delegatee : String
  authority : String
  expiry : ℕ
  nonce : ℕ
  functions : List String
deriving DecidableEq

/-- `DelegationSignature` (`src/lib/eip7702.ts`). -/
structure DelegationSignature where
  request : DelegationRequest
  signature : String
deriving DecidableEq

/-- `BatchOperation` (`src/lib/batchOps.ts`). -/
structure BatchOperation where
  walletAddress : String
  delegateeAddress : String
  airdropContract : String
  tokenContract : Option String
  receiverAddress : String
  claimData : String
  claimValue : Option String
  transferAmount : Option String
  serviceFeeAmount : Option String
  delegationSignature : DelegationSignature
deriving DecidableEq

/-- Result status of one executed operation (`src/lib/batchOps.ts`). -/
inductive OpStatus where
  | pending
  | success
  | error
deriving DecidableEq

/-- `BatchResult` (`src/lib/batchOps.ts`); the wall-clock `timestamp` is
omitted from the model. -/
structure BatchResult where
  walletAddress : String
  status : OpStatus
  transactionHash : Option String
  error : Option String
deriving DecidableEq

/-! ### Fee Calculator: `handleServiceFeeToggle` (`App.tsx`) -/

/-- The per-field computation
`claimInput && isValidValueInput(claimInput) ? parseValueInput(claimInput) : 0n`
from `handleServiceFeeToggle`.  The `Except.error` fallback is unreachable:
the parse is guarded by the validity check. -/
def parsedAmountIfValid (input : String) : ℤ :=
  if input != "" && isValidValueInput (some input) then
    match parseValueInput (some input) with
    | .ok n => n
    | .error _ => 0
  else 0

/-- The body of the `prev.map` callback in `handleServiceFeeToggle`
(`App.tsx`): recompute `serviceFeeAmount` from the wallet's own inputs. -/
def handleServiceFeeToggleConfig (enabled : Bool) (feeNumerator : ℤ)
    (config : WalletConfig) : WalletConfig :=
  let claimInput := (config.claimValue.map jsTrim).getD ""
  let transferInput := (config.transferAmount.map jsTrim).getD ""
  let claimAmount := parsedAmountIfValid claimInput
  let transferAmount := parsedAmountIfValid transferInput
  let baseAmount := if claimAmount > transferAmount then claimAmount
    else transferAmount
  let feeAmount := if enabled then bigIntDiv (baseAmount * feeNumerator) 1000
    else 0
  { config with serviceFeeAmount := some (formatHexValue feeAmount) }

/-- `handleServiceFeeToggle` (`App.tsx`): normalise every wallet's cached
`serviceFeeAmount` when the fee toggle flips. -/
def handleServiceFeeToggle (enabled : Bool) (fee : ServiceFeeConfig)
    (configs : List WalletConfig) : List WalletConfig :=
  let feeNumerator := jsRound ((fee.feePercentage.getD (1 / 5)) * 1000)
  configs.map (handleServiceFeeToggleConfig enabled feeNumerator)

/-! ### Fee Calculator: derived amounts (`OperationConfigurationCard.tsx`) -/

/-- `claimValueBigInt` / `transferValueBigInt`: parse an already-trimmed
input if it is valid, with a `try`/`catch` fallback to `0n`. -/
def cardAmountOf (input : String) : ℤ :=
  let valid := if input = "" then true else isValidValueInput (some input)
  if valid then
    match parseValueInput (some (if input = "" then "0" else input)) with
    | .ok n => n
    | .error _ => 0
  else 0

/-- `baseValue`: the larger of the claim and transfer amounts. -/
def cardBaseValue (claimInput transferInput : String) : ℤ :=
  let c := cardAmountOf claimInput
  let t := cardAmountOf transferInput
  if c > t then c else t

/-- `feeBigInt`: fee from the base amount via the parts-per-1000 numerator. -/
def cardFeeBigInt (fee : ServiceFeeConfig) (claimInput transferInput : String) :
    ℤ :=
  if fee.enabled then
    bigIntDiv
      (cardBaseValue claimInput transferInput *
        jsRound ((fee.feePercentage.getD (1 / 5)) * 1000)) 1000
  else 0

/-- `netBigInt`: base minus fee, never negative. -/
def cardNetBigInt (fee : ServiceFeeConfig) (claimInput transferInput : String) :
    ℤ :=
  let base := cardBaseValue claimInput transferInput
  let feeAmt := cardFeeBigInt fee claimInput transferInput
  if base > feeAmt then base - feeAmt else 0

/-! ### Delegation readiness (`App.tsx` / `BatchExecutor.tsx`) -/

/-- The `delegationValid` check shared by `delegationReadyMap` (`App.tsx`)
and `getValidWallets` (`BatchExecutor.tsx`):
`!!delegation && delegation.delegated &&
 (!delegation.expiry || delegation.expiry > Date.now() / 1000)`.
`now` is `Date.now() / 1000`, a rational number of seconds. -/
def delegationReady (delegation : Option DelegationInfo) (now : ℚ) : Bool :=
  match delegation with
  | none => false
  | some d =>
    d.delegated && ((d.expiry.getD 0 == 0) || decide (now < (d.expiry.getD 0 : ℚ)))

/-- The per-wallet readiness predicate of `delegationReadyMap` (`App.tsx`),
identical to the filter body of `getValidWallets` (`BatchExecutor.tsx`). -/
def walletReady (config : WalletConfig) (delegation : Option DelegationInfo)
    (now : ℚ) : Bool :=
  let delegationValid := delegationReady delegation now
  let hasPrivateKey := decide (0 < (jsTrim config.privateKey).length)
  let hasAirdropContract := decide (0 < (jsTrim config.airdropContract).length)
  let hasReceiver := decide (0 < (jsTrim config.receiverAddress).length)
  let hasTokenContract :=
    if config.operationType == .transfer || config.operationType == .both then
      decide (0 < (jsTrim (config.tokenContract.getD "")).length)
    else true
  let needsClaimData :=
    config.operationType == .claim || config.operationType == .both
  let hasClaimData :=
    if needsClaimData then decide (0 < (jsTrim config.claimData).length)
    else true
  let claimValid := isValidValueInput config.claimValue
  let transferValid := isValidValueInput config.transferAmount
  hasPrivateKey && hasAirdropContract && hasReceiver && hasTokenContract &&
    hasClaimData && claimValid && transferValid && delegationValid

/-- Modelled from the spec: syntactic private-key validity.  The source
delegates this check to the ethers `Wallet` constructor
(`validatePrivateKey` in the wallet utilities), which is not part of this
repository; per the spec a key is syntactically valid when it is a
`0x`-prefixed 32-byte (64 hex digit) string. -/
def isValidPrivateKeySyntax (key : String) : Bool :=
  match key.data with
  | '0' :: 'x' :: rest => rest.length == 64 && rest.all isHexDigit
  | _ => false

/-! ### Delegation Authority (`DelegationPanel.tsx`, `src/lib/eip7702.ts`) -/

/-- `FUNCTION_SIGNATURES.CLAIM` (`src/lib/eip7702.ts`). -/
def functionSignatureClaim : String := "claim()"

/-- `FUNCTION_SIGNATURES.TRANSFER` (`src/lib/eip7702.ts`). -/
def functionSignatureTransfer : String := "transfer(address,uint256)"

/-- The `allowedFunctions` whitelist built by `createDelegation`
(`DelegationPanel.tsx`): `claim()` always; `transfer(address,uint256)` only
for operation types `transfer` and `both`. -/
def allowedFunctionsFor (operationType : OperationType) : List String :=
  [functionSignatureClaim] ++
    (if operationType == .transfer || operationType == .both then
      [functionSignatureTransfer]
    else [])

/-! ### Batch Operation Builder (`executeBatch` in `BatchExecutor.tsx`) -/

/-- The body of the `readyWallets.map` callback in `executeBatch`
(`BatchExecutor.tsx`).  `walletAddress` is the address ethers derives from
`config.privateKey`; the derivation is external to the repository, so the
address is passed as a parameter. -/
def buildBatchOperation (config : WalletConfig) (walletAddress : String)
    (delegation : DelegationInfo) : BatchOperation :=
  let claimValue := match jsOrOptStr (config.claimValue.map jsTrim) (some "0x0")
    with
    | some v => v
    | none => "0x0"
  let transferAmount :=
    match jsOrOptStr (config.transferAmount.map jsTrim) (some "0x0") with
    | some v => v
    | none => "0x0"
  let serviceFeeAmount :=
    match jsOrOptStr (config.serviceFeeAmount.map jsTrim) (some "0x0") with
    | some v => v
    | none => "0x0"
  { walletAddress := walletAddress
    delegateeAddress := delegation.batchContractAddress
    airdropContract := config.airdropContract
    tokenContract := config.tokenContract
    receiverAddress := config.receiverAddress
    claimData := config.claimData
    claimValue := some claimValue
    transferAmount := some transferAmount
    serviceFeeAmount := some serviceFeeAmount
    delegationSignature :=
      { request :=
          { delegator := walletAddress
            delegatee := delegation.batchContractAddress
            authority := delegation.batchContractAddress
            expiry := delegation.expiry.getD 0
            nonce := delegation.nonce.getD 0
            functions := [functionSignatureClaim, functionSignatureTransfer] }
        signature := delegation.signature.getD "" } }

/-! ### Batch Executor (`executeBatchOperations` in `src/lib/batchOps.ts`) -/

/-- Outcome of submitting and awaiting one transaction, abstracting the
network: either some value is thrown during `sendTransaction`/`wait`
(`some msg` models a thrown `Error` with that message, `none` a thrown
non-`Error` value), or a receipt is obtained (`receiptStatus = none` models
a null receipt). -/
inductive TxOutcome where
  | thrown (errorMessage : Option String)
  | confirmed (hash : String) (receiptStatus : Option ℤ)
deriving DecidableEq

/-- The message recorded by the `catch` block:
`error instanceof Error ? error.message : "Unknown error"`. -/
def throwMessage (e : Option String) : String :=
  match e with
  | some msg => msg
  | none => "Unknown error"

/-- One loop iteration of `executeBatchOperations`: classify the outcome of
an operation into a `BatchResult`. -/
def resultOf (op : BatchOperation) (outcome : TxOutcome) : BatchResult :=
  match outcome with
  | .confirmed h st =>
    { walletAddress := op.walletAddress
      status := if st == some 1 then .success else .error
      transactionHash := some h
      error := if st == some 1 then none else some "Transaction failed" }
  | .thrown e =>
    { walletAddress := op.walletAddress
      status := .error
      transactionHash := none
      error := some (throwMessage e) }

/-- The `for` loop of `executeBatchOperations`, indexed from `i`. -/
def executeBatchAux (oracle : ℕ → TxOutcome) :
    ℕ → List BatchOperation → List BatchResult
  | _, [] => []
  | i, op :: rest => resultOf op (oracle i) :: executeBatchAux oracle (i + 1) rest

/-- `executeBatchOperations` (`src/lib/batchOps.ts`): sequential execution,
one `BatchResult` pushed per operation, exceptions caught per operation.
`oracle i` is the network outcome of the `i`-th submission. -/
def executeBatchOperations (operations : List BatchOperation)
    (oracle : ℕ → TxOutcome) : List BatchResult :=
  executeBatchAux oracle 0 operations

/-! ### Post-Execution Distributor (`BatchExecutor.tsx`) -/

/-- One ERC-20 `transfer` issued from the recovered wallet. -/
structure TokenTransfer where
  token : String
  recipient : String
  amount : ℤ
deriving DecidableEq

/-- `parseAmountToBigInt` (`BatchExecutor.tsx`): trim, then `BigInt` with a
`try`/`catch` fallback to `0n`. -/
def parseAmountToBigInt (value : Option String) : ℤ :=
  match value with
  | none => 0
  | some v =>
    if v = "" then 0
    else
      let trimmed := jsTrim v
      if trimmed = "" then 0
      else (jsBigIntOfString trimmed).getD 0

/-- The `totalAmount` determination in `distributeRecoveredTokens`:
`parseAmountToBigInt(config.transferAmount || config.claimValue)`. -/
def distributorTotalAmount (config : WalletConfig) : ℤ :=
  parseAmountToBigInt (jsOrOptStr config.transferAmount config.claimValue)

/-- `distributeRecoveredTokens` (`BatchExecutor.tsx`), as the ordered list
of token transfers it issues from the recovered wallet. -/
def distributeRecoveredTokens (fee : ServiceFeeConfig) (config : WalletConfig) :
    List TokenTransfer :=
  if !jsTruthyStr config.tokenContract then []
  else
    let totalAmount := distributorTotalAmount config
    if totalAmount ≤ 0 then []
    else
      let feeNumerator := jsRound ((fee.feePercentage.getD (1 / 5)) * 1000)
      let feeAmount :=
        if fee.enabled && (fee.providerWalletAddress != "") then
          bigIntDiv (totalAmount * feeNumerator) 1000
        else 0
      let netAmount := if totalAmount > feeAmount then totalAmount - feeAmount
        else 0
      if feeAmount == 0 && netAmount == 0 then []
      else
        (if fee.enabled && decide (0 < feeAmount) &&
            (fee.providerWalletAddress != "") then
          [⟨config.tokenContract.getD "", fee.providerWalletAddress, feeAmount⟩]
        else []) ++
        (if 0 < netAmount then
          [⟨config.tokenContract.getD "", config.receiverAddress, netAmount⟩]
        else [])

/-- The post-execution loop of `executeBatch` (`BatchExecutor.tsx`):
distribute for each wallet whose result exists and reported success. -/
def distributeAfterBatch (fee : ServiceFeeConfig) :
    List WalletConfig → List BatchResult → List TokenTransfer
  | [], _ => []
  | _ :: _, [] => []
  | config :: ws, r :: rs =>
    (if r.status == .success then distributeRecoveredTokens fee config else [])
      ++ distributeAfterBatch fee ws rs

/-- The operation used by the C2 counterexample. -/
def c2CexOperation : BatchOperation :=
  { walletAddress := "0xWallet1"
    delegateeAddress := "0xBatch"
    airdropContract := "0xAirdrop"
    tokenContract := none
    receiverAddress := "0xReceiver"
    claimData := "0x1234"
    claimValue := some "0x0"
    transferAmount := some "0"
    serviceFeeAmount := some "0x0"
    delegationSignature :=
      { request :=
          { delegator := "0xWallet1", delegatee := "0xBatch",
            authority := "0xBatch", expiry := 42, nonce := 1,
            functions := [functionSignatureClaim, functionSignatureTransfer] }
        signature := "0xSig" } }

/-- The wallet configuration used by the C5 counterexample: every readiness
check passes, but the non-empty private key `"zz"` is not syntactically
valid. -/
def c5CexConfig : WalletConfig :=
  { id := "w1", name := "Wallet 1", network := "ethereum", privateKey := "zz",
    operationType := .claim, airdropContract := "0xA", tokenContract := none,
    claimData := "0x12", receiverAddress := "0xR", claimValue := some "1",
    transferAmount := none, serviceFeeAmount := some "0x0",
    delegated := false, balance := none }

/-- The wallet configuration used by the C1 instance and witness. -/
def c1DemoConfig : WalletConfig :=
  { id := "w1", name := "Wallet 1", network := "ethereum",
    privateKey := "0xKey", operationType := .both, airdropContract := "0xA",
    tokenContract := some "0xT", claimData := "0x12",
    receiverAddress := "0xR", claimValue := some "1000",
    transferAmount := some "0", serviceFeeAmount := some "0x0",
    delegated := false, balance := none }

/-- The fee configuration used by the C1 instance and witness
(fee enabled, `feePercentage = 0.2`). -/
def c1DemoFee : ServiceFeeConfig :=
  { enabled := true, providerWalletAddress := "0xFee",
    feePercentage := some (1 / 5) }

/-- The wallet and fee configurations used by the C6 witness. -/
def c6DemoConfig : WalletConfig :=
  { id := "w1", name := "Wallet 1", network := "ethereum",
    privateKey := "0xKey", operationType := .both, airdropContract := "0xA",
    tokenContract := some "0xT", claimData := "0x12",
    receiverAddress := "0xR", claimValue := some "0",
    transferAmount := some "1000", serviceFeeAmount := some "0xc8",
    delegated := false, balance := none }

/-! ### Helper lemmas: trimming -/

theorem dropWhile_dropWhile (p : Char → Bool) (l : List Char) :
    (l.dropWhile p).dropWhile p = l.dropWhile p := by
  induction l with
  | nil => rfl
  | cons c cs ih =>
    by_cases h : p c
    · simpa [List.dropWhile_cons, h] using ih
    · simp [List.dropWhile_cons, h]

theorem dropWhile_eq_self_of_not (p : Char → Bool) (l : List Char)
    (h : ∀ c ∈ l, p c = false) : l.dropWhile p = l := by
  cases l with
  | nil => rfl
  | cons c cs => simp [List.dropWhile_cons, h c (by simp)]

theorem string_mk_data (s : String) : (⟨s.data⟩ : String) = s := by
  cases s
  rfl

theorem string_eq_empty_iff (s : String) : s = "" ↔ s.data = [] := by
  constructor
  · intro h; rw [h]
  · intro h; exact String.ext h

theorem jsTrim_eq_self {s : String}
    (h : ∀ c ∈ s.data, isJsWhitespace c = false) : jsTrim s = s := by
  have h1 : s.data.dropWhile isJsWhitespace = s.data :=
    dropWhile_eq_self_of_not _ _ h
  have h2 : s.data.reverse.dropWhile isJsWhitespace = s.data.reverse :=
    dropWhile_eq_self_of_not _ _ (fun c hc => h c (List.mem_reverse.mp hc))
  show (⟨_⟩ : String) = s
  rw [h1, h2, List.reverse_reverse]

theorem trimRight_append (l : List Char) :
    l = (l.reverse.dropWhile isJsWhitespace).reverse
        ++ (l.reverse.takeWhile isJsWhitespace).reverse := by
  calc l = l.reverse.reverse := (List.reverse_reverse l).symm
  _ = ((l.reverse.takeWhile isJsWhitespace)
        ++ (l.reverse.dropWhile isJsWhitespace)).reverse := by
      rw [List.takeWhile_append_dropWhile]
  _ = _ := by rw [List.reverse_append]

theorem dropWhile_left_of_trimmed (l : List Char)
    (hl : l.dropWhile isJsWhitespace = l) :
    ((l.reverse.dropWhile isJsWhitespace).reverse).dropWhile isJsWhitespace
      = (l.reverse.dropWhile isJsWhitespace).reverse := by
  cases hRc : (l.reverse.dropWhile isJsWhitespace).reverse with
  | nil => rfl
  | cons c rest =>
    have hlc : l = c :: (rest ++ (l.reverse.takeWhile isJsWhitespace).reverse) := by
      conv_lhs => rw [trimRight_append l]
      rw [hRc]
      simp
    by_cases hws : isJsWhitespace c
    · exfalso
      rw [hlc, List.dropWhile_cons, if_pos hws] at hl
      have hle := (List.dropWhile_sublist (l := rest ++
        (l.reverse.takeWhile isJsWhitespace).reverse) isJsWhitespace).length_le
      rw [hl] at hle
      simp at hle
    · rw [List.dropWhile_cons, if_neg hws]

theorem jsTrim_idem (s : String) : jsTrim (jsTrim s) = jsTrim s := by
  have hA : (jsTrim s).data.dropWhile isJsWhitespace = (jsTrim s).data :=
    dropWhile_left_of_trimmed (s.data.dropWhile isJsWhitespace)
      (dropWhile_dropWhile _ _)
  have hB : (jsTrim s).data.reverse.dropWhile isJsWhitespace
      = (jsTrim s).data.reverse := by
    have hrev : (jsTrim s).data.reverse
        = (s.data.dropWhile isJsWhitespace).reverse.dropWhile isJsWhitespace := by
      show (((s.data.dropWhile isJsWhitespace).reverse.dropWhile
        isJsWhitespace).reverse).reverse = _
      rw [List.reverse_reverse]
    rw [hrev, dropWhile_dropWhile]
  show (⟨_⟩ : String) = jsTrim s
  rw [hA, hB, List.reverse_reverse]

theorem jsTrim_empty : jsTrim "" = "" := rfl

/-! ### Helper lemmas: digits, bases and formatting -/

theorem hexCharVal_digitChar : ∀ d, d < 16 → hexCharVal (Nat.digitChar d) = d := by
  decide

theorem isHexDigit_digitChar : ∀ d, d < 16 →
    isHexDigit (Nat.digitChar d) = true := by
  decide

theorem isDecDigit_digitChar : ∀ d, d < 10 →
    isDecDigit (Nat.digitChar d) = true := by
  decide

theorem not_ws_digitChar : ∀ d, d < 16 →
    isJsWhitespace (Nat.digitChar d) = false := by
  decide

theorem isJsWhitespace_iff_mem (c : Char) :
    isJsWhitespace c = true ↔ c ∈ jsWhitespaceChars := by
  simp [isJsWhitespace]

theorem isDecDigit_not_ws {c : Char} (hd : isDecDigit c = true) :
    isJsWhitespace c = false := by
  cases hws : isJsWhitespace c
  · rfl
  · exfalso
    have hm := (isJsWhitespace_iff_mem c).mp hws
    fin_cases hm <;> simp [isDecDigit] at hd

theorem baseVal_append_singleton (b : ℕ) (l : List Char) (c : Char) :
    baseVal b (l ++ [c]) = b * baseVal b l + hexCharVal c := by
  simp [baseVal, List.foldl_append]

theorem baseVal_natToBaseAux (b : ℕ) (hb : 2 ≤ b) (hb16 : b ≤ 16) :
    ∀ fuel n, n ≤ fuel → baseVal b (natToBaseAux b fuel n) = n := by
  intro fuel
  induction fuel with
  | zero =>
    intro n hn
    obtain rfl : n = 0 := Nat.le_zero.mp hn
    rfl
  | succ f ih =>
    intro n hn
    match n with
    | 0 => rfl
    | m + 1 =>
      have hdiv : (m + 1) / b ≤ f := by
        have : (m + 1) / b < m + 1 := Nat.div_lt_self (Nat.succ_pos m) hb
        omega
      have hmod : (m + 1) % b < 16 :=
        lt_of_lt_of_le (Nat.mod_lt _ (by omega)) hb16
      calc baseVal b (natToBaseAux b (f + 1) (m + 1))
          = baseVal b (natToBaseAux b f ((m + 1) / b)
              ++ [Nat.digitChar ((m + 1) % b)]) := rfl
        _ = b * baseVal b (natToBaseAux b f ((m + 1) / b))
              + hexCharVal (Nat.digitChar ((m + 1) % b)) :=
            baseVal_append_singleton b _ _
        _ = b * ((m + 1) / b) + (m + 1) % b := by
            rw [ih _ hdiv, hexCharVal_digitChar _ hmod]
        _ = m + 1 := Nat.div_add_mod _ _

theorem mem_natToBaseAux (b : ℕ) (hb : 2 ≤ b) :
    ∀ fuel n c, c ∈ natToBaseAux b fuel n → ∃ d, d < b ∧ c = Nat.digitChar d := by
  intro fuel
  induction fuel with
  | zero => intro n c hc; exact absurd hc (List.not_mem_nil c)
  | succ f ih =>
    intro n c hc
    match n with
    | 0 => exact absurd hc (List.not_mem_nil c)
    | m + 1 =>
      rcases List.mem_append.mp hc with h | h
      · exact ih _ c h
      · refine ⟨(m + 1) % b, Nat.mod_lt _ (by omega), ?_⟩
        simpa using h

theorem baseVal_natToBaseChars (b n : ℕ) (hb : 2 ≤ b) (hb16 : b ≤ 16) :
    baseVal b (natToBaseChars b n) = n := by
  unfold natToBaseChars
  by_cases hn : n = 0
  · subst hn; simp [baseVal, hexCharVal]
  · rw [if_neg hn]
    exact baseVal_natToBaseAux b hb hb16 n n le_rfl

theorem natToBaseChars_ne_nil (b n : ℕ) : natToBaseChars b n ≠ [] := by
  unfold natToBaseChars
  by_cases hn : n = 0
  · simp [hn]
  · rw [if_neg hn]
    match n, hn with
    | m + 1, _ => simp [natToBaseAux]

theorem mem_natToBaseChars (b n : ℕ) (hb : 2 ≤ b) :
    ∀ c ∈ natToBaseChars b n, ∃ d, d < b ∧ c = Nat.digitChar d := by
  intro c hc
  unfold natToBaseChars at hc
  by_cases hn : n = 0
  · rw [if_pos hn] at hc
    refine ⟨0, by omega, ?_⟩
    simpa using hc
  · rw [if_neg hn] at hc
    exact mem_natToBaseAux b hb n n c hc

/-! ### Helper lemmas: the Value Parser -/

theorem not_prefix_one {a : Char} {l : List Char}
    (hall : ∀ c ∈ l, isDecDigit c = true) (ha : isDecDigit a = false) :
    [a].isPrefixOf l = false := by
  cases hx : [a].isPrefixOf l
  · rfl
  · exfalso
    obtain ⟨t, rfl⟩ := List.isPrefixOf_iff_prefix.mp hx
    have hmem := hall a (by simp)
    rw [ha] at hmem
    exact Bool.noConfusion hmem

theorem not_prefix_two {a b : Char} {l : List Char}
    (hall : ∀ c ∈ l, isDecDigit c = true) (hb : isDecDigit b = false) :
    [a, b].isPrefixOf l = false := by
  cases hx : [a, b].isPrefixOf l
  · rfl
  · exfalso
    obtain ⟨t, rfl⟩ := List.isPrefixOf_iff_prefix.mp hx
    have hmem := hall b (by simp)
    rw [hb] at hmem
    exact Bool.noConfusion hmem

theorem isValid_trim (v : String) :
    isValidValueInput (some (jsTrim v)) = isValidValueInput (some v) := by
  by_cases hv : v = ""
  · subst hv; rfl
  · by_cases ht : jsTrim v = ""
    · rw [ht]
      have hlhs : isValidValueInput (some "") = true := rfl
      rw [hlhs]
      simp only [isValidValueInput]
      rw [if_neg hv, if_pos ht]
    · simp only [isValidValueInput]
      rw [jsTrim_idem, if_neg hv]
      simp only [if_neg ht]

theorem parse_trim (v : String) :
    parseValueInput (some (jsTrim v)) = parseValueInput (some v) := by
  by_cases hv : v = ""
  · subst hv; rfl
  · by_cases ht : jsTrim v = ""
    · rw [ht]
      have hlhs : parseValueInput (some "") = .ok 0 := rfl
      rw [hlhs]
      simp only [parseValueInput]
      rw [if_neg hv, if_pos ht]
    · simp only [parseValueInput]
      rw [jsTrim_idem, if_neg hv]
      simp only [if_neg ht]

theorem parseValueInput_blank {s : String} (h : jsTrim s = "") :
    parseValueInput (some s) = .ok 0 := by
  by_cases hv : s = ""
  · subst hv; rfl
  · simp only [parseValueInput]
    rw [if_neg hv, if_pos h]

theorem parseValueInput_error_of_invalid {s : String} (hne : jsTrim s ≠ "")
    (hinv : isValidValueInput (some s) = false) :
    parseValueInput (some s) = .error "Invalid numeric input" := by
  have hv : s ≠ "" := by
    intro h; subst h; exact hne jsTrim_empty
  have hinv' : isValidValueInput (some (jsTrim s)) = false := by
    rw [isValid_trim]; exact hinv
  simp only [parseValueInput]
  rw [if_neg hv, if_neg hne, hinv']
  rfl

theorem isValid_hex_shape {s : String} {rest : List Char}
    (hdata : s.data = '0' :: 'x' :: rest) (hne : rest ≠ [])
    (hhex : ∀ c ∈ rest, isHexDigit c = true) (htrim : jsTrim s = s) :
    isValidValueInput (some s) = true := by
  obtain ⟨c, cs, rfl⟩ : ∃ c cs, rest = c :: cs := by
    cases rest with
    | nil => exact absurd rfl hne
    | cons c cs => exact ⟨c, cs, rfl⟩
  have hsne : s ≠ "" := by
    rw [Ne, string_eq_empty_iff, hdata]; simp
  simp only [isValidValueInput]
  rw [if_neg hsne, htrim, if_neg hsne, hdata]
  have hdash : ['-'].isPrefixOf ('0' :: 'x' :: c :: cs) = false := rfl
  have h0x : (['0', 'x'].isPrefixOf ('0' :: 'x' :: c :: cs)
      || ['0', 'X'].isPrefixOf ('0' :: 'x' :: c :: cs)) = true := rfl
  rw [hdash, h0x]
  simp only [Bool.false_eq_true, if_false, if_true]
  show regexHexTest s = true
  unfold regexHexTest
  rw [hdata]
  have hall : (c :: cs).all isHexDigit = true := List.all_eq_true.mpr hhex
  have hpre : ['0', 'x'].isPrefixOf ('0' :: 'x' :: c :: cs) = true := rfl
  have hdrop : (('0' :: 'x' :: c :: cs : List Char)).drop 2 = c :: cs := rfl
  rw [hdrop, hpre, hall]
  rfl

theorem char_toNat_le_of_le {a b : Char} (h : a ≤ b) : a.toNat ≤ b.toNat :=
  Char.le_def.mp h

theorem hexCharVal_lt_sixteen (c : Char) : hexCharVal c < 16 := by
  unfold hexCharVal
  split_ifs with h1 h2 h3
  · unfold isDecDigit at h1
    rw [Bool.and_eq_true, decide_eq_true_eq, decide_eq_true_eq] at h1
    have hle := char_toNat_le_of_le h1.2
    have h9 : ('9').toNat = 57 := rfl
    have h0 : ('0').toNat = 48 := rfl
    omega
  · rw [Bool.and_eq_true, decide_eq_true_eq, decide_eq_true_eq] at h2
    have hle := char_toNat_le_of_le h2.2
    have hf : ('f').toNat = 102 := rfl
    have ha : ('a').toNat = 97 := rfl
    omega
  · rw [Bool.and_eq_true, decide_eq_true_eq, decide_eq_true_eq] at h3
    have hle := char_toNat_le_of_le h3.2
    have hF : ('F').toNat = 70 := rfl
    have hA : ('A').toNat = 65 := rfl
    omega
  · omega

theorem isBaseDigit_sixteen (c : Char) : isBaseDigit 16 c = isHexDigit c := by
  unfold isBaseDigit
  rw [decide_eq_true (hexCharVal_lt_sixteen c), Bool.and_true]

theorem hexCharVal_lt_ten {c : Char} (h : isDecDigit c = true) :
    hexCharVal c < 10 := by
  unfold hexCharVal
  rw [if_pos h]
  unfold isDecDigit at h
  rw [Bool.and_eq_true, decide_eq_true_eq, decide_eq_true_eq] at h
  have hle := char_toNat_le_of_le h.2
  have h9 : ('9').toNat = 57 := rfl
  have h0 : ('0').toNat = 48 := rfl
  omega

theorem isBaseDigit_ten_of_dec {c : Char} (h : isDecDigit c = true) :
    isBaseDigit 10 c = true := by
  have hhex : isHexDigit c = true := by
    unfold isHexDigit
    rw [h]
    rfl
  unfold isBaseDigit
  rw [hhex, decide_eq_true (hexCharVal_lt_ten h), Bool.and_true]

theorem parseBaseDigits_sixteen {rest : List Char} (hne : rest ≠ [])
    (hhex : ∀ c ∈ rest, isHexDigit c = true) :
    parseBaseDigits 16 rest = some (baseVal 16 rest) := by
  obtain ⟨c, cs, rfl⟩ : ∃ c cs, rest = c :: cs := by
    cases rest with
    | nil => exact absurd rfl hne
    | cons c cs => exact ⟨c, cs, rfl⟩
  have hall : (c :: cs).all (isBaseDigit 16) = true :=
    List.all_eq_true.mpr fun x hx => by
      rw [isBaseDigit_sixteen]; exact hhex x hx
  unfold parseBaseDigits
  rw [hall]
  rfl

theorem parseBaseDigits_ten {rest : List Char} (hne : rest ≠ [])
    (hdec : ∀ c ∈ rest, isDecDigit c = true) :
    parseBaseDigits 10 rest = some (baseVal 10 rest) := by
  obtain ⟨c, cs, rfl⟩ : ∃ c cs, rest = c :: cs := by
    cases rest with
    | nil => exact absurd rfl hne
    | cons c cs => exact ⟨c, cs, rfl⟩
  have hall : (c :: cs).all (isBaseDigit 10) = true :=
    List.all_eq_true.mpr fun x hx => isBaseDigit_ten_of_dec (hdec x hx)
  unfold parseBaseDigits
  rw [hall]
  rfl

theorem jsBigInt_hex_shape {s : String} {rest : List Char}
    (hdata : s.data = '0' :: 'x' :: rest) (hne : rest ≠ [])
    (hhex : ∀ c ∈ rest, isHexDigit c = true) (htrim : jsTrim s = s) :
    jsBigIntOfString s = some ((baseVal 16 rest : ℕ) : ℤ) := by
  have hkey : jsBigIntOfString s
      = (parseBaseDigits 16 (('0' :: 'x' :: rest).drop 2)).map Int.ofNat := by
    unfold jsBigIntOfString
    rw [htrim, hdata]
    simp +decide
  rw [hkey]
  have hdrop : (('0' :: 'x' :: rest : List Char)).drop 2 = rest := rfl
  rw [hdrop, parseBaseDigits_sixteen hne hhex]
  rfl

theorem list_isEmpty_false {l : List Char} (h : l ≠ []) : l.isEmpty = false := by
  cases l with
  | nil => exact absurd rfl h
  | cons c cs => rfl

theorem isValid_dec_shape {s : String} (hne : s.data ≠ [])
    (hdec : ∀ c ∈ s.data, isDecDigit c = true) (htrim : jsTrim s = s) :
    isValidValueInput (some s) = true := by
  have hsne : s ≠ "" := by rw [Ne, string_eq_empty_iff]; exact hne
  have hdash : ['-'].isPrefixOf s.data = false := not_prefix_one hdec (by decide)
  have h0x : ['0', 'x'].isPrefixOf s.data = false := not_prefix_two hdec (by decide)
  have h0X : ['0', 'X'].isPrefixOf s.data = false := not_prefix_two hdec (by decide)
  have hregex : regexDecTest s = true := by
    unfold regexDecTest
    rw [list_isEmpty_false hne, List.all_eq_true.mpr hdec]
    rfl
  simp only [isValidValueInput]
  rw [if_neg hsne, htrim, if_neg hsne, hdash, h0x, h0X]
  simpa using hregex

theorem jsBigInt_dec_shape {s : String} (hne : s.data ≠ [])
    (hdec : ∀ c ∈ s.data, isDecDigit c = true) (htrim : jsTrim s = s) :
    jsBigIntOfString s = some ((baseVal 10 s.data : ℕ) : ℤ) := by
  have h0x : ['0', 'x'].isPrefixOf s.data = false := not_prefix_two hdec (by decide)
  have h0X : ['0', 'X'].isPrefixOf s.data = false := not_prefix_two hdec (by decide)
  have h0o : ['0', 'o'].isPrefixOf s.data = false := not_prefix_two hdec (by decide)
  have h0O : ['0', 'O'].isPrefixOf s.data = false := not_prefix_two hdec (by decide)
  have h0b : ['0', 'b'].isPrefixOf s.data = false := not_prefix_two hdec (by decide)
  have h0B : ['0', 'B'].isPrefixOf s.data = false := not_prefix_two hdec (by decide)
  have hplus : ['+'].isPrefixOf s.data = false := not_prefix_one hdec (by decide)
  have hdash : ['-'].isPrefixOf s.data = false := not_prefix_one hdec (by decide)
  unfold jsBigIntOfString
  rw [htrim]
  simp only [list_isEmpty_false hne, h0x, h0X, h0o, h0O, h0b, h0B, hplus,
    hdash, Bool.or_self, Bool.false_eq_true, if_false]
  rw [parseBaseDigits_ten hne hdec]
  rfl

theorem parse_hex_shape {s : String} {rest : List Char}
    (hdata : s.data = '0' :: 'x' :: rest) (hne : rest ≠ [])
    (hhex : ∀ c ∈ rest, isHexDigit c = true) (htrim : jsTrim s = s) :
    parseValueInput (some s) = .ok ((baseVal 16 rest : ℕ) : ℤ) := by
  have hsne : s ≠ "" := by
    rw [Ne, string_eq_empty_iff, hdata]; simp
  have htne : jsTrim s ≠ "" := by rw [htrim]; exact hsne
  have hvalid : isValidValueInput (some (jsTrim s)) = true := by
    rw [htrim]; exact isValid_hex_shape hdata hne hhex htrim
  simp only [parseValueInput]
  rw [if_neg hsne, if_neg htne, hvalid]
  simp only [Bool.not_true, Bool.false_eq_true, if_false]
  rw [htrim, jsBigInt_hex_shape hdata hne hhex htrim]

theorem parse_dec_shape {s : String} (hne : s.data ≠ [])
    (hdec : ∀ c ∈ s.data, isDecDigit c = true) (htrim : jsTrim s = s) :
    parseValueInput (some s) = .ok ((baseVal 10 s.data : ℕ) : ℤ) := by
  have hsne : s ≠ "" := by rw [Ne, string_eq_empty_iff]; exact hne
  have htne : jsTrim s ≠ "" := by rw [htrim]; exact hsne
  have hvalid : isValidValueInput (some (jsTrim s)) = true := by
    rw [htrim]; exact isValid_dec_shape hne hdec htrim
  simp only [parseValueInput]
  rw [if_neg hsne, if_neg htne, hvalid]
  simp only [Bool.not_true, Bool.false_eq_true, if_false]
  rw [htrim, jsBigInt_dec_shape hne hdec htrim]

theorem formatHexValue_natCast (n : ℕ) :
    (formatHexValue (n : ℤ)).data = '0' :: 'x' :: natToBaseChars 16 n := by
  unfold formatHexValue
  rw [if_neg (not_lt.mpr (Int.natCast_nonneg n)), Int.natAbs_ofNat,
    String.data_append]
  rfl

theorem formatDecimalValue_natCast (n : ℕ) :
    (formatDecimalValue (n : ℤ)).data = natToBaseChars 10 n := by
  unfold formatDecimalValue
  rw [if_neg (not_lt.mpr (Int.natCast_nonneg n)), Int.natAbs_ofNat,
    String.data_append]
  rfl

theorem jsTrim_formatHex (n : ℕ) :
    jsTrim (formatHexValue (n : ℤ)) = formatHexValue (n : ℤ) := by
  refine jsTrim_eq_self ?_
  rw [formatHexValue_natCast]
  intro c hc
  simp only [List.mem_cons] at hc
  rcases hc with rfl | rfl | hc
  · decide
  · decide
  · obtain ⟨d, hd, rfl⟩ := mem_natToBaseChars 16 n (by norm_num) c hc
    exact not_ws_digitChar d hd

theorem jsTrim_formatDecimal (n : ℕ) :
    jsTrim (formatDecimalValue (n : ℤ)) = formatDecimalValue (n : ℤ) := by
  refine jsTrim_eq_self ?_
  rw [formatDecimalValue_natCast]
  intro c hc
  obtain ⟨d, hd, rfl⟩ := mem_natToBaseChars 10 n (by norm_num) c hc
  exact not_ws_digitChar d (by omega)

theorem parse_formatHexValue (n : ℕ) :
    parseValueInput (some (formatHexValue (n : ℤ))) = .ok (n : ℤ) := by
  have hhex : ∀ c ∈ natToBaseChars 16 n, isHexDigit c = true := fun c hc => by
    obtain ⟨d, hd, rfl⟩ := mem_natToBaseChars 16 n (by norm_num) c hc
    exact isHexDigit_digitChar d hd
  rw [parse_hex_shape (formatHexValue_natCast n) (natToBaseChars_ne_nil 16 n)
    hhex (jsTrim_formatHex n),
    baseVal_natToBaseChars 16 n (by norm_num) (by norm_num)]

theorem parse_formatDecimalValue (n : ℕ) :
    parseValueInput (some (formatDecimalValue (n : ℤ))) = .ok (n : ℤ) := by
  have hdec : ∀ c ∈ (formatDecimalValue (n : ℤ)).data, isDecDigit c = true := by
    rw [formatDecimalValue_natCast]
    intro c hc
    obtain ⟨d, hd, rfl⟩ := mem_natToBaseChars 10 n (by norm_num) c hc
    exact isDecDigit_digitChar d hd
  have hne : (formatDecimalValue (n : ℤ)).data ≠ [] := by
    rw [formatDecimalValue_natCast]
    exact natToBaseChars_ne_nil 10 n
  rw [parse_dec_shape hne hdec (jsTrim_formatDecimal n)]
  rw [formatDecimalValue_natCast, baseVal_natToBaseChars 10 n (by norm_num)
    (by norm_num)]

theorem parse_of_decString {s : String}
    (hdec : ∀ c ∈ s.data, isDecDigit c = true) :
    parseValueInput (some s) = .ok ((baseVal 10 s.data : ℕ) : ℤ) := by
  by_cases hne : s.data = []
  · have hs : s = "" := (string_eq_empty_iff s).mpr hne
    subst hs
    rfl
  · exact parse_dec_shape hne hdec
      (jsTrim_eq_self fun c hc => isDecDigit_not_ws (hdec c hc))

theorem prefix_two_iff (a b : Char) (l : List Char) :
    [a, b].isPrefixOf l = true ↔ ∃ t, l = a :: b :: t := by
  rw [List.isPrefixOf_iff_prefix]
  constructor
  · rintro ⟨t, rfl⟩
    exact ⟨t, rfl⟩
  · rintro ⟨t, rfl⟩
    exact ⟨t, rfl⟩

theorem parse_ok_of_valid {s : String}
    (h : isValidValueInput (some s) = true) :
    ∃ v : ℤ, 0 ≤ v ∧ parseValueInput (some s) = .ok v := by
  by_cases hb : jsTrim s = ""
  · exact ⟨0, le_rfl, parseValueInput_blank hb⟩
  · have htt : jsTrim (jsTrim s) = jsTrim s := jsTrim_idem s
    have hvt : isValidValueInput (some (jsTrim s)) = true := by
      rw [isValid_trim]; exact h
    have hpt : parseValueInput (some (jsTrim s)) = parseValueInput (some s) :=
      parse_trim s
    simp only [isValidValueInput] at hvt
    rw [if_neg hb, htt, if_neg hb] at hvt
    split_ifs at hvt with hdash hpre
    · unfold regexHexTest at hvt
      rw [Bool.and_assoc, Bool.and_eq_true, Bool.and_eq_true] at hvt
      obtain ⟨hpx, hne2, hall⟩ := hvt
      obtain ⟨rest, hrest⟩ : ∃ rest, (jsTrim s).data = '0' :: 'x' :: rest :=
        (prefix_two_iff '0' 'x' _).mp hpx
      have hne3 : rest ≠ [] := by
        intro hr
        rw [hrest, hr] at hne2
        simp at hne2
      have hhex : ∀ c ∈ rest, isHexDigit c = true := by
        intro c hc
        have hall' : rest.all isHexDigit = true := by
          rw [hrest] at hall
          simpa using hall
        exact List.all_eq_true.mp hall' c hc
      refine ⟨((baseVal 16 rest : ℕ) : ℤ), Int.natCast_nonneg _, ?_⟩
      rw [← hpt, parse_hex_shape hrest hne3 hhex htt]
    · unfold regexDecTest at hvt
      rw [Bool.and_eq_true] at hvt
      obtain ⟨hne2, hall⟩ := hvt
      have hne3 : (jsTrim s).data ≠ [] := by
        intro hr
        rw [hr] at hne2
        simp at hne2
      refine ⟨((baseVal 10 (jsTrim s).data : ℕ) : ℤ), Int.natCast_nonneg _, ?_⟩
      rw [← hpt, parse_dec_shape hne3 (List.all_eq_true.mp hall) htt]

theorem validAmount_spec (o : Option String)
    (h : isValidValueInput o = true) :
    ∃ v : ℤ, 0 ≤ v ∧ parseValueInput o = .ok v ∧
      parsedAmountIfValid ((o.map jsTrim).getD "") = v ∧
      cardAmountOf ((o.map jsTrim).getD "") = v := by
  match o with
  | none => exact ⟨0, le_rfl, rfl, rfl, rfl⟩
  | some s =>
    by_cases hb : jsTrim s = ""
    · refine ⟨0, le_rfl, parseValueInput_blank hb, ?_, ?_⟩
      · show parsedAmountIfValid (jsTrim s) = 0
        rw [hb]
        rfl
      · show cardAmountOf (jsTrim s) = 0
        rw [hb]
        rfl
    · obtain ⟨v, hv0, hpv⟩ := parse_ok_of_valid h
      have hvalid_t : isValidValueInput (some (jsTrim s)) = true := by
        rw [isValid_trim]; exact h
      have hpt : parseValueInput (some (jsTrim s)) = .ok v := by
        rw [parse_trim]; exact hpv
      refine ⟨v, hv0, hpv, ?_, ?_⟩
      · show parsedAmountIfValid (jsTrim s) = v
        unfold parsedAmountIfValid
        rw [if_pos (by
          rw [Bool.and_eq_true, bne_iff_ne]
          exact ⟨hb, hvalid_t⟩), hpt]
      · show cardAmountOf (jsTrim s) = v
        simp only [cardAmountOf]
        simp only [if_neg hb]
        rw [if_pos hvalid_t, hpt]

/-! ### Helper lemmas: rounding and truncating division -/

theorem jsRound_nonneg {q : ℚ} (h : 0 ≤ q) : 0 ≤ jsRound q := by
  unfold jsRound
  have : (0 : ℚ) ≤ q + 1 / 2 := by linarith
  exact_mod_cast Int.le_floor.mpr (by push_cast; linarith)

theorem bigIntDiv_floor (a : ℤ) (ha : 0 ≤ a) :
    bigIntDiv a 1000 = ⌊(a : ℚ) / 1000⌋ := by
  unfold bigIntDiv
  rw [Int.tdiv_eq_ediv ha (by norm_num)]
  rw [show ((1000 : ℚ)) = ((1000 : ℕ) : ℚ) by norm_num,
    Rat.floor_intCast_div_natCast]
  rfl

theorem jsRound_one_fifth : jsRound ((1 / 5 : ℚ) * 1000) = 200 := by
  unfold jsRound
  rw [show ((1 / 5 : ℚ) * 1000 + 1 / 2) = 401 / 2 by norm_num]
  rw [Int.floor_eq_iff]
  norm_num

/-! ### Helper lemmas: the Batch Executor -/

theorem executeBatchAux_length (oracle : ℕ → TxOutcome)
    (ops : List BatchOperation) :
    ∀ k, (executeBatchAux oracle k ops).length = ops.length := by
  induction ops with
  | nil => intro k; rfl
  | cons op rest ih =>
    intro k
    show (executeBatchAux oracle k (op :: rest)).length = rest.length + 1
    rw [executeBatchAux]
    simp [ih (k + 1)]

theorem executeBatchAux_getElem (oracle : ℕ → TxOutcome)
    (ops : List BatchOperation) :
    ∀ k i, (executeBatchAux oracle k ops)[i]?
      = (ops[i]?).map (fun op => resultOf op (oracle (k + i))) := by
  induction ops with
  | nil => intro k i; simp [executeBatchAux]
  | cons op rest ih =>
    intro k i
    cases i with
    | zero => simp [executeBatchAux]
    | succ j =>
      rw [executeBatchAux]
      have : k + (j + 1) = (k + 1) + j := by omega
      simp [ih (k + 1) j, this]

theorem if_gt_eq_max (a b : ℤ) : (if a > b then a else b) = max a b := by
  rw [max_def]
  split_ifs with h1 h2 <;> omega

theorem string_length_pos_iff (s : String) : 0 < s.length ↔ s ≠ "" := by
  rw [show s.length = s.data.length from rfl, List.length_pos, Ne, Ne,
    string_eq_empty_iff s]

/-! ### Claim theorems -/

/-- C8: for every non-negative integer `n`,
`parseValueInput (formatHexValue n) = n` and `formatHexValue 0 = "0x0"`; and
for every string of decimal digits, parsing round-trips through
`formatDecimalValue`. -/
theorem c8_format_parse_roundtrip :
    (∀ n : ℕ, parseValueInput (some (formatHexValue (n : ℤ))) = .ok (n : ℤ))
    ∧ formatHexValue 0 = "0x0"
    ∧ (∀ s : String, (∀ c ∈ s.data, isDecDigit c = true) →
        ∃ v : ℤ, parseValueInput (some s) = .ok v ∧
          parseValueInput (some (formatDecimalValue v)) = .ok v) := by
  refine ⟨parse_formatHexValue, by decide, ?_⟩
  intro s hdec
  exact ⟨((baseVal 10 s.data : ℕ) : ℤ), parse_of_decString hdec,
    parse_formatDecimalValue _⟩

/-- Witness for C8 at `n = 255` and `s = "0123"`. -/
theorem c8_format_parse_roundtrip_witness :
    parseValueInput (some (formatHexValue ((255 : ℕ) : ℤ))) = .ok ((255 : ℕ) : ℤ)
    ∧ (∀ c ∈ ("0123" : String).data, isDecDigit c = true)
    ∧ ∃ v : ℤ, parseValueInput (some "0123") = .ok v ∧
        parseValueInput (some (formatDecimalValue v)) = .ok v :=
  ⟨c8_format_parse_roundtrip.1 255, by decide,
    c8_format_parse_roundtrip.2.2 "0123" (by decide)⟩

/-- C9: every non-blank string that fails `isValidValueInput` makes
`parseValueInput` throw the invalid-amount error (never silently coerced to
zero), while an absent, empty or all-whitespace string parses to 0. -/
theorem c9_parse_error_on_invalid :
    (∀ s : String, jsTrim s ≠ "" → isValidValueInput (some s) = false →
      parseValueInput (some s) = .error "Invalid numeric input")
    ∧ parseValueInput none = .ok 0
    ∧ (∀ s : String, jsTrim s = "" → parseValueInput (some s) = .ok 0) :=
  ⟨fun _ hne hinv => parseValueInput_error_of_invalid hne hinv, rfl,
    fun _ h => parseValueInput_blank h⟩

/-- Witness for C9 at the invalid input `"-1"` and the blank input `"  "`. -/
theorem c9_parse_error_on_invalid_witness :
    (jsTrim "-1" ≠ "" ∧ isValidValueInput (some "-1") = false ∧
      parseValueInput (some "-1") = .error "Invalid numeric input")
    ∧ (jsTrim "  " = "" ∧ parseValueInput (some "  ") = .ok 0) :=
  ⟨⟨by decide, by decide,
      c9_parse_error_on_invalid.1 "-1" (by decide) (by decide)⟩,
    ⟨by decide, c9_parse_error_on_invalid.2.2 "  " (by decide)⟩⟩

/-- C2 counterexample: an operation whose submission throws an `Error` whose
`message` is the empty string is recorded with `status = error` but an EMPTY
error message, refuting the claim that a throwing operation always yields a
non-empty error message. -/
theorem c2_batch_execution_counterexample :
    (executeBatchOperations [c2CexOperation]
        (fun _ => TxOutcome.thrown (some ""))).map
        (fun r => (r.status, r.error))
      = [(OpStatus.error, some "")] := by
  decide

/-- C2 (amended): `executeBatchOperations` returns exactly one result per
input operation in input order; the `i`-th result depends only on the `i`-th
operation and its own network outcome (so one failure never aborts the
batch), and a thrown outcome yields `status = error` with the thrown
`Error`'s message (possibly empty) or `"Unknown error"` for a non-`Error`
throw. -/
theorem c2_batch_execution :
    ∀ (operations : List BatchOperation) (oracle : ℕ → TxOutcome),
      (executeBatchOperations operations oracle).length = operations.length
      ∧ (∀ i : ℕ, (executeBatchOperations operations oracle)[i]?
          = (operations[i]?).map (fun op => resultOf op (oracle i)))
      ∧ (∀ op e, (resultOf op (.thrown e)).status = .error
          ∧ (resultOf op (.thrown e)).error = some (throwMessage e)
          ∧ (resultOf op (.thrown e)).walletAddress = op.walletAddress) := by
  intro operations oracle
  refine ⟨executeBatchAux_length oracle operations 0, fun i => ?_,
    fun op e => ⟨rfl, rfl, rfl⟩⟩
  simpa using executeBatchAux_getElem oracle operations 0 i

/-- C4: a delegation is ready iff it is delegated and its expiry is absent,
zero, or strictly in the future; in particular one second past is not ready
and one second in the future is ready. -/
theorem c4_delegation_readiness :
    (∀ (d : DelegationInfo) (now : ℚ),
      delegationReady (some d) now = true ↔
        (d.delegated = true ∧
          (d.expiry = none ∨ d.expiry = some 0 ∨
            ∃ e : ℕ, d.expiry = some e ∧ now < (e : ℚ))))
    ∧ delegationReady (some { walletAddress := "0xW",
                              batchContractAddress := "0xB", delegated := true,
                              signature := some "0xSig", expiry := some 999,
                              nonce := some 1 })
        1000 = false
    ∧ delegationReady (some { walletAddress := "0xW",
                              batchContractAddress := "0xB", delegated := true,
                              signature := some "0xSig", expiry := some 1001,
                              nonce := some 1 })
        1000 = true := by
  refine ⟨?_, by decide, by decide⟩
  intro d now
  have hun : delegationReady (some d) now
      = (d.delegated &&
        ((d.expiry.getD 0 == 0) || decide (now < (d.expiry.getD 0 : ℚ)))) := rfl
  cases hde : d.expiry with
  | none =>
    rw [hun, hde]
    simp
  | some e =>
    rw [hun, hde]
    simp only [Option.getD_some, Bool.and_eq_true, Bool.or_eq_true,
      beq_iff_eq, decide_eq_true_eq, Option.some.injEq]
    constructor
    · rintro ⟨hdel, he0 | hlt⟩
      · exact ⟨hdel, Or.inr (Or.inl he0)⟩
      · exact ⟨hdel, Or.inr (Or.inr ⟨e, rfl, hlt⟩)⟩
    · rintro ⟨hdel, hnone | he0 | ⟨e2, he2, hlt⟩⟩
      · exact absurd hnone (by simp)
      · exact ⟨hdel, Or.inl he0⟩
      · obtain rfl : e2 = e := he2.symm
        exact ⟨hdel, Or.inr hlt⟩

/-- C7: the delegation signature payload built for batch execution embeds the
fixed function list `["claim()", "transfer(address,uint256)"]` regardless of
the wallet's operation type, while the whitelist actually signed at delegation
time contains only `"claim()"` when the operation type is `claim`. -/
theorem c7_embedded_function_list :
    (∀ (config : WalletConfig) (walletAddress : String) (d : DelegationInfo),
      (buildBatchOperation config walletAddress
          d).delegationSignature.request.functions
        = [functionSignatureClaim, functionSignatureTransfer])
    ∧ allowedFunctionsFor .claim = [functionSignatureClaim]
    ∧ allowedFunctionsFor .claim
        ≠ [functionSignatureClaim, functionSignatureTransfer] :=
  ⟨fun _ _ _ => rfl, rfl, by decide⟩

/-- C10: the fee-toggle recomputation preserves the list length and order and
changes no field of any `WalletConfig` other than `serviceFeeAmount`. -/
theorem c10_toggle_frame :
    ∀ (enabled : Bool) (fee : ServiceFeeConfig) (configs : List WalletConfig),
      (handleServiceFeeToggle enabled fee configs).length = configs.length
      ∧ ∀ i : ℕ,
        (((handleServiceFeeToggle enabled fee configs)[i]?).map
              WalletConfig.id = (configs[i]?).map WalletConfig.id)
        ∧ (((handleServiceFeeToggle enabled fee configs)[i]?).map
              WalletConfig.name = (configs[i]?).map WalletConfig.name)
        ∧ (((handleServiceFeeToggle enabled fee configs)[i]?).map
              WalletConfig.network = (configs[i]?).map WalletConfig.network)
        ∧ (((handleServiceFeeToggle enabled fee configs)[i]?).map
              WalletConfig.privateKey
            = (configs[i]?).map WalletConfig.privateKey)
        ∧ (((handleServiceFeeToggle enabled fee configs)[i]?).map
              WalletConfig.operationType
            = (configs[i]?).map WalletConfig.operationType)
        ∧ (((handleServiceFeeToggle enabled fee configs)[i]?).map
              WalletConfig.airdropContract
            = (configs[i]?).map WalletConfig.airdropContract)
        ∧ (((handleServiceFeeToggle enabled fee configs)[i]?).map
              WalletConfig.tokenContract
            = (configs[i]?).map WalletConfig.tokenContract)
        ∧ (((handleServiceFeeToggle enabled fee configs)[i]?).map
              WalletConfig.claimData = (configs[i]?).map WalletConfig.claimData)
        ∧ (((handleServiceFeeToggle enabled fee configs)[i]?).map
              WalletConfig.receiverAddress
            = (configs[i]?).map WalletConfig.receiverAddress)
        ∧ (((handleServiceFeeToggle enabled fee configs)[i]?).map
              WalletConfig.claimValue
            = (configs[i]?).map WalletConfig.claimValue)
        ∧ (((handleServiceFeeToggle enabled fee configs)[i]?).map
              WalletConfig.transferAmount
            = (configs[i]?).map WalletConfig.transferAmount)
        ∧ (((handleServiceFeeToggle enabled fee configs)[i]?).map
              WalletConfig.delegated = (configs[i]?).map WalletConfig.delegated)
        ∧ (((handleServiceFeeToggle enabled fee configs)[i]?).map
              WalletConfig.balance = (configs[i]?).map WalletConfig.balance) := by
  intro enabled fee configs
  refine ⟨by simp [handleServiceFeeToggle], fun i => ?_⟩
  cases h : configs[i]? with
  | none => simp [handleServiceFeeToggle, List.getElem?_map, h]
  | some c =>
    simp [handleServiceFeeToggle, List.getElem?_map, h,
      handleServiceFeeToggleConfig]

/-- C3 counterexample: `"0X1a"` has the `0X` prefix with a non-empty
hexadecimal remainder, so the claim says it is valid, but `isValidValueInput`
rejects it: the regex `/^0x[0-9a-fA-F]+$/` requires the lowercase `0x`
prefix. -/
theorem c3_validity_counterexample :
    isValidValueInput (some "0X1a") = false
    ∧ jsTrim "0X1a" = "0X1a"
    ∧ ("0X1a" : String).data = '0' :: 'X' :: ['1', 'a']
    ∧ (∀ c ∈ ['1', 'a'], isHexDigit c = true) := by
  refine ⟨by decide, by decide, by decide, by decide⟩

/-- C3 (amended): empty/blank input is valid; a trimmed leading `-` is
invalid; a trimmed input starting with lowercase `0x` is valid iff the
remainder is one or more hex digits; a trimmed input starting with uppercase
`0X` is always invalid; anything else is valid iff it is one or more decimal
digits.  The spec's examples all hold. -/
theorem c3_validity_characterization :
    (∀ s : String,
      isValidValueInput (some s) = true ↔
        (jsTrim s = "" ∨
          (['-'].isPrefixOf (jsTrim s).data = false ∧
            ((∃ rest, (jsTrim s).data = '0' :: 'x' :: rest ∧ rest ≠ [] ∧
                ∀ c ∈ rest, isHexDigit c = true) ∨
              (['0', 'x'].isPrefixOf (jsTrim s).data = false ∧
                ['0', 'X'].isPrefixOf (jsTrim s).data = false ∧
                (jsTrim s).data ≠ [] ∧
                ∀ c ∈ (jsTrim s).data, isDecDigit c = true)))))
    ∧ isValidValueInput (some "") = true
    ∧ isValidValueInput (some "0x1a") = true
    ∧ isValidValueInput (some "123") = true
    ∧ isValidValueInput (some "-1") = false
    ∧ isValidValueInput (some "0xag") = false
    ∧ isValidValueInput (some "0X1a") = false := by
  refine ⟨?_, by decide, by decide, by decide, by decide, by decide, by decide⟩
  intro s
  by_cases hs : s = ""
  · subst hs
    have hv : isValidValueInput (some "") = true := by decide
    simp [jsTrim_empty, hv]
  · by_cases ht : jsTrim s = ""
    · have hlhs : isValidValueInput (some s) = true := by
        simp only [isValidValueInput]
        rw [if_neg hs, if_pos ht]
      rw [hlhs]
      simp [ht]
    · simp only [isValidValueInput]
      rw [if_neg hs, if_neg ht]
      by_cases hdash : ['-'].isPrefixOf (jsTrim s).data = true
      · rw [if_pos hdash]
        simp only [Bool.false_eq_true, false_iff]
        rintro (ht' | ⟨hd', _⟩)
        · exact ht ht'
        · rw [hdash] at hd'
          exact Bool.noConfusion hd'
      · have hdashf : ['-'].isPrefixOf (jsTrim s).data = false := by
          revert hdash
          cases ['-'].isPrefixOf (jsTrim s).data <;> simp
        rw [if_neg hdash]
        by_cases hpre : (['0', 'x'].isPrefixOf (jsTrim s).data
            || ['0', 'X'].isPrefixOf (jsTrim s).data) = true
        · rw [if_pos hpre]
          unfold regexHexTest
          constructor
          · intro hrt
            rw [Bool.and_assoc, Bool.and_eq_true, Bool.and_eq_true] at hrt
            obtain ⟨hpx, hne2, hall⟩ := hrt
            obtain ⟨rest, hrest⟩ := (prefix_two_iff '0' 'x' _).mp hpx
            refine Or.inr ⟨hdashf, Or.inl ⟨rest, hrest, ?_, ?_⟩⟩
            · intro hr
              rw [hrest, hr] at hne2
              simp at hne2
            · intro c hc
              rw [hrest] at hall
              have hall' : rest.all isHexDigit = true := by simpa using hall
              exact List.all_eq_true.mp hall' c hc
          · rintro (ht' | ⟨_, ⟨rest, hrest, hne', hhex'⟩ | ⟨h0x, h0X, _, _⟩⟩)
            · exact absurd ht' ht
            · rw [Bool.and_assoc, Bool.and_eq_true, Bool.and_eq_true]
              refine ⟨(prefix_two_iff '0' 'x' _).mpr ⟨rest, hrest⟩, ?_, ?_⟩
              · rw [hrest]
                have : rest.isEmpty = false := list_isEmpty_false hne'
                simp [this]
              · rw [hrest]
                have : rest.all isHexDigit = true := List.all_eq_true.mpr hhex'
                simpa using this
            · rw [h0x, h0X] at hpre
              exact Bool.noConfusion hpre
        · rw [if_neg hpre]
          have hor : ['0', 'x'].isPrefixOf (jsTrim s).data = false ∧
              ['0', 'X'].isPrefixOf (jsTrim s).data = false := by
            revert hpre
            cases ['0', 'x'].isPrefixOf (jsTrim s).data <;>
              cases ['0', 'X'].isPrefixOf (jsTrim s).data <;> simp
          unfold regexDecTest
          constructor
          · intro hrd
            rw [Bool.and_eq_true] at hrd
            obtain ⟨hne2, hall⟩ := hrd
            refine Or.inr ⟨hdashf, Or.inr ⟨hor.1, hor.2, ?_,
              List.all_eq_true.mp hall⟩⟩
            intro hr
            rw [hr] at hne2
            simp at hne2
          · rintro (ht' | ⟨_, ⟨rest, hrest, _, _⟩ | ⟨_, _, hne', hall'⟩⟩)
            · exact absurd ht' ht
            · exfalso
              have : ['0', 'x'].isPrefixOf (jsTrim s).data = true :=
                (prefix_two_iff '0' 'x' _).mpr ⟨rest, hrest⟩
              rw [hor.1] at this
              exact Bool.noConfusion this
            · rw [Bool.and_eq_true]
              exact ⟨by rw [list_isEmpty_false hne']; rfl,
                List.all_eq_true.mpr hall'⟩

/-- C5 counterexample: a wallet whose private key is non-empty but not
syntactically valid is still counted ready for batch building, refuting the
claim that readiness requires a syntactically valid private key. -/
theorem c5_wallet_readiness_counterexample :
    walletReady c5CexConfig
        (some { walletAddress := "0xW", batchContractAddress := "0xB",
                delegated := true, signature := some "0xSig",
                expiry := some 999, nonce := some 1 }) 10 = true
    ∧ isValidPrivateKeySyntax c5CexConfig.privateKey = false := by
  refine ⟨by decide, by decide⟩

/-- C5 (amended): a wallet is included in batch building iff its delegation
is ready, its private key, airdrop contract and receiver address are
non-empty after trimming (no syntactic key validation is performed), its
token contract is non-empty when the operation type is `transfer` or `both`,
its claim data is non-empty when the operation type is `claim` or `both`,
and both claim value and transfer amount pass Value Parser validity; in
particular a wallet with operation type `transfer` and an empty token
contract is excluded. -/
theorem c5_wallet_readiness :
    (∀ (config : WalletConfig) (delegation : Option DelegationInfo) (now : ℚ),
      walletReady config delegation now = true ↔
        (jsTrim config.privateKey ≠ "" ∧
          jsTrim config.airdropContract ≠ "" ∧
          jsTrim config.receiverAddress ≠ "" ∧
          ((config.operationType = .transfer ∨ config.operationType = .both) →
            jsTrim (config.tokenContract.getD "") ≠ "") ∧
          ((config.operationType = .claim ∨ config.operationType = .both) →
            jsTrim config.claimData ≠ "") ∧
          isValidValueInput config.claimValue = true ∧
          isValidValueInput config.transferAmount = true ∧
          delegationReady delegation now = true))
    ∧ walletReady { c5CexConfig with
                    privateKey := "0xKey",
                    operationType := .transfer, tokenContract := some "" }
        (some { walletAddress := "0xW", batchContractAddress := "0xB",
                delegated := true, signature := some "0xSig",
                expiry := some 999, nonce := some 1 }) 10 = false := by
  refine ⟨?_, by decide⟩
  intro config delegation now
  rcases hop : config.operationType <;>
    simp [walletReady, hop, string_length_pos_iff, Bool.and_eq_true,
      decide_eq_true_eq, and_assoc]

/-- The cached `serviceFeeAmount` written by one fee-toggle map step, as a
function of the parsed amounts. -/
theorem handleServiceFeeToggleConfig_fee (enabled : Bool) (num : ℤ)
    (config : WalletConfig) :
    (handleServiceFeeToggleConfig enabled num config).serviceFeeAmount
      = some (formatHexValue (if enabled then
          bigIntDiv
            (max (parsedAmountIfValid ((config.claimValue.map jsTrim).getD ""))
              (parsedAmountIfValid
                ((config.transferAmount.map jsTrim).getD "")) * num) 1000
        else 0)) := by
  simp only [handleServiceFeeToggleConfig]
  rw [if_gt_eq_max]

/-- C1: for every wallet with parseable amounts, the recomputed service fee
equals `floor(base * round(feePercentage * 1000) / 1000)` with
`base = max(claim, transfer)` when the fee is enabled and `0` when disabled,
and the derived net amount equals `base - fee` when `base > fee` and `0`
otherwise; in particular base `1000` with `feePercentage = 0.2` yields fee
`200` (cached as `"0xc8"`) and net `800`. -/
theorem c1_service_fee_and_net :
    (∀ (config : WalletConfig) (fee : ServiceFeeConfig) (enabled : Bool)
      (p : ℚ), fee.feePercentage = some p → 0 ≤ p →
      isValidValueInput config.claimValue = true →
      isValidValueInput config.transferAmount = true →
      ∃ cv tv feeAmt : ℤ, 0 ≤ cv ∧ 0 ≤ tv ∧
        parseValueInput config.claimValue = .ok cv ∧
        parseValueInput config.transferAmount = .ok tv ∧
        feeAmt = (if enabled then
          ⌊((max cv tv * jsRound (p * 1000) : ℤ) : ℚ) / 1000⌋ else 0) ∧
        (handleServiceFeeToggle enabled fee [config]).map
            (fun c => c.serviceFeeAmount)
          = [some (formatHexValue feeAmt)] ∧
        cardFeeBigInt { fee with enabled := enabled }
            ((config.claimValue.map jsTrim).getD "")
            ((config.transferAmount.map jsTrim).getD "")
          = feeAmt ∧
        cardNetBigInt { fee with enabled := enabled }
            ((config.claimValue.map jsTrim).getD "")
            ((config.transferAmount.map jsTrim).getD "")
          = (if max cv tv > feeAmt then max cv tv - feeAmt else 0))
    ∧ handleServiceFeeToggle true c1DemoFee [c1DemoConfig]
      = [{ c1DemoConfig with serviceFeeAmount := some "0xc8" }]
    ∧ cardNetBigInt c1DemoFee "1000" "0" = 800 := by
  refine ⟨?_, ?_, ?_⟩
  · intro config fee enabled p hp hp0 hc htv
    obtain ⟨cv, hcv0, hcvp, hcvt, hcvc⟩ := validAmount_spec config.claimValue hc
    obtain ⟨tv, htv0, htvp, htvt, htvc⟩ :=
      validAmount_spec config.transferAmount htv
    have hnum0 : 0 ≤ jsRound (p * 1000) :=
      jsRound_nonneg (mul_nonneg hp0 (by norm_num))
    have hbase0 : 0 ≤ max cv tv := le_trans hcv0 (le_max_left _ _)
    have hfloor : bigIntDiv (max cv tv * jsRound (p * 1000)) 1000
        = ⌊((max cv tv * jsRound (p * 1000) : ℤ) : ℚ) / 1000⌋ :=
      bigIntDiv_floor _ (mul_nonneg hbase0 hnum0)
    refine ⟨cv, tv, _, hcv0, htv0, hcvp, htvp, rfl, ?_, ?_, ?_⟩
    · have htog : handleServiceFeeToggle enabled fee [config]
          = [handleServiceFeeToggleConfig enabled (jsRound (p * 1000)) config] := by
        unfold handleServiceFeeToggle
        rw [hp]
        rfl
      rw [htog, List.map_singleton, handleServiceFeeToggleConfig_fee,
        hcvt, htvt, hfloor]
    · simp only [cardFeeBigInt, cardBaseValue, hp, Option.getD_some]
      rw [if_gt_eq_max, hcvc, htvc]
      cases enabled with
      | false => rfl
      | true =>
        simp only [if_true]
        rw [hfloor]
    · simp only [cardNetBigInt, cardFeeBigInt, cardBaseValue, hp,
        Option.getD_some]
      rw [if_gt_eq_max, hcvc, htvc]
      cases enabled with
      | false => rfl
      | true =>
        simp only [if_true]
        rw [hfloor]
  · simp only [handleServiceFeeToggle, c1DemoFee, Option.getD_some]
    rw [jsRound_one_fifth]
    decide
  · simp only [cardNetBigInt, cardFeeBigInt, cardBaseValue, c1DemoFee,
      Option.getD_some]
    rw [jsRound_one_fifth]
    decide

/-- Witness for C1 at the demo wallet (claim value `"1000"`, transfer amount
`"0"`, fee percentage `0.2`, fee enabled). -/
theorem c1_service_fee_and_net_witness :
    c1DemoFee.feePercentage = some (1 / 5)
    ∧ (0 : ℚ) ≤ 1 / 5
    ∧ isValidValueInput c1DemoConfig.claimValue = true
    ∧ isValidValueInput c1DemoConfig.transferAmount = true
    ∧ ∃ cv tv feeAmt : ℤ, 0 ≤ cv ∧ 0 ≤ tv ∧
        parseValueInput c1DemoConfig.claimValue = .ok cv ∧
        parseValueInput c1DemoConfig.transferAmount = .ok tv ∧
        feeAmt = (if true then
          ⌊((max cv tv * jsRound ((1 / 5) * 1000) : ℤ) : ℚ) / 1000⌋ else 0) ∧
        (handleServiceFeeToggle true c1DemoFee [c1DemoConfig]).map
            (fun c => c.serviceFeeAmount)
          = [some (formatHexValue feeAmt)] ∧
        cardFeeBigInt { c1DemoFee with enabled := true }
            ((c1DemoConfig.claimValue.map jsTrim).getD "")
            ((c1DemoConfig.transferAmount.map jsTrim).getD "")
          = feeAmt ∧
        cardNetBigInt { c1DemoFee with enabled := true }
            ((c1DemoConfig.claimValue.map jsTrim).getD "")
            ((c1DemoConfig.transferAmount.map jsTrim).getD "")
          = (if max cv tv > feeAmt then max cv tv - feeAmt else 0) :=
  ⟨rfl, by norm_num, by decide, by decide,
    c1_service_fee_and_net.1 c1DemoConfig c1DemoFee true (1 / 5) rfl
      (by norm_num) (by decide) (by decide)⟩

/-- C6: the distributor takes `totalAmount` from the transfer amount when
present, else the claim value; does nothing without a token contract or with
a zero total; and with the fee enabled and a collector configured issues the
fee transfer `floor(total * feeNumerator / 1000)` first (skipped if zero),
then the clamped net amount to the receiver (skipped if zero), only for
wallets whose batch result reported success. -/
theorem c6_distribution :
    (∀ (fee : ServiceFeeConfig) (config : WalletConfig) (p : ℚ),
      fee.enabled = true → fee.providerWalletAddress ≠ "" →
      fee.feePercentage = some p → 0 ≤ p →
      jsTruthyStr config.tokenContract = true →
      0 < distributorTotalAmount config →
      ∃ feeAmt netAmt : ℤ,
        feeAmt = bigIntDiv
          (distributorTotalAmount config * jsRound (p * 1000)) 1000
        ∧ feeAmt = ⌊((distributorTotalAmount config * jsRound (p * 1000) : ℤ) :
            ℚ) / 1000⌋
        ∧ netAmt = (if distributorTotalAmount config > feeAmt then
            distributorTotalAmount config - feeAmt else 0)
        ∧ distributeRecoveredTokens fee config
          = (if 0 < feeAmt then
              [⟨config.tokenContract.getD "", fee.providerWalletAddress,
                feeAmt⟩]
            else [])
            ++ (if 0 < netAmt then
              [⟨config.tokenContract.getD "", config.receiverAddress, netAmt⟩]
            else []))
    ∧ (∀ (fee : ServiceFeeConfig) (config : WalletConfig),
        jsTruthyStr config.tokenContract = false →
        distributeRecoveredTokens fee config = [])
    ∧ (∀ (fee : ServiceFeeConfig) (config : WalletConfig),
        distributorTotalAmount config = 0 →
        distributeRecoveredTokens fee config = [])
    ∧ (∀ config : WalletConfig, jsTruthyStr config.transferAmount = true →
        distributorTotalAmount config = parseAmountToBigInt config.transferAmount)
    ∧ (∀ config : WalletConfig, jsTruthyStr config.transferAmount = false →
        distributorTotalAmount config = parseAmountToBigInt config.claimValue)
    ∧ (∀ (fee : ServiceFeeConfig) (config : WalletConfig) (r : BatchResult)
        (ws : List WalletConfig) (rs : List BatchResult),
        (r.status ≠ .success →
          distributeAfterBatch fee (config :: ws) (r :: rs)
            = distributeAfterBatch fee ws rs)
        ∧ (r.status = .success →
          distributeAfterBatch fee (config :: ws) (r :: rs)
            = distributeRecoveredTokens fee config
              ++ distributeAfterBatch fee ws rs)) := by
  refine ⟨?_, ?_, ?_, ?_, ?_, ?_⟩
  · intro fee config p he hw hp hp0 htc htot
    have hnum0 : 0 ≤ jsRound (p * 1000) :=
      jsRound_nonneg (mul_nonneg hp0 (by norm_num))
    have hprod0 : 0 ≤ distributorTotalAmount config * jsRound (p * 1000) :=
      mul_nonneg (le_of_lt htot) hnum0
    refine ⟨bigIntDiv (distributorTotalAmount config * jsRound (p * 1000)) 1000,
      _, rfl, bigIntDiv_floor _ hprod0, rfl, ?_⟩
    have hbne : (fee.providerWalletAddress != "") = true := by
      rw [bne_iff_ne]
      exact hw
    have hfee0 : 0 ≤ bigIntDiv
        (distributorTotalAmount config * jsRound (p * 1000)) 1000 :=
      Int.tdiv_nonneg hprod0 (by norm_num)
    unfold distributeRecoveredTokens
    rw [htc]
    simp only [Bool.not_true, Bool.false_eq_true, if_false]
    rw [if_neg (not_le.mpr htot), hp]
    simp only [Option.getD_some, he, hbne, Bool.true_and, Bool.and_true,
      if_true]
    set feeAmt := bigIntDiv
      (distributorTotalAmount config * jsRound (p * 1000)) 1000 with hfa
    set netAmt : ℤ := if distributorTotalAmount config > feeAmt then
      distributorTotalAmount config - feeAmt else 0 with hna
    have hnet0 : 0 ≤ netAmt := by
      rw [hna]
      split_ifs with h
      · omega
      · exact le_rfl
    by_cases hf : 0 < feeAmt
    · have : (feeAmt == 0) = false := by
        rw [beq_eq_false_iff_ne]
        omega
      simp only [this, Bool.false_and, Bool.false_eq_true, if_false,
        decide_eq_true hf, Bool.true_and, if_true]
      rw [if_pos hf]
    · have hfeq : feeAmt = 0 := by omega
      have h1 : (feeAmt == 0) = true := by
        rw [beq_iff_eq]
        exact hfeq
      have h2 : (decide (0 < feeAmt)) = false := by
        rw [decide_eq_false_iff_not]
        exact hf
      rw [if_neg hf]
      simp only [h1, h2, Bool.and_false, Bool.false_and, Bool.true_and,
        List.nil_append]
      by_cases hn : 0 < netAmt
      · have : (netAmt == 0) = false := by
          rw [beq_eq_false_iff_ne]
          omega
        simp only [this, Bool.and_false, Bool.false_eq_true, if_false,
          if_pos hn]
        rfl
      · have hneq : netAmt = 0 := by omega
        have h3 : (netAmt == 0) = true := by
          rw [beq_iff_eq]
          exact hneq
        simp only [h3, Bool.and_true, Bool.true_and, if_neg hn]
        simp
  · intro fee config htc
    unfold distributeRecoveredTokens
    rw [htc]
    rfl
  · intro fee config htot
    unfold distributeRecoveredTokens
    by_cases htc : jsTruthyStr config.tokenContract
    · rw [htc]
      simp only [Bool.not_true, Bool.false_eq_true, if_false]
      rw [if_pos (le_of_eq htot)]
    · have : jsTruthyStr config.tokenContract = false := by
        revert htc
        cases jsTruthyStr config.tokenContract <;> simp
      rw [this]
      rfl
  · intro config htr
    unfold distributorTotalAmount jsOrOptStr
    rw [htr]
    simp
  · intro config htr
    unfold distributorTotalAmount jsOrOptStr
    rw [htr]
    simp
  · intro fee config r ws rs
    constructor
    · intro hns
      have : (r.status == OpStatus.success) = false := by
        rw [beq_eq_false_iff_ne]
        exact hns
      rw [distributeAfterBatch, this]
      rfl
    · intro hs
      have : (r.status == OpStatus.success) = true := by
        rw [beq_iff_eq]
        exact hs
      rw [distributeAfterBatch, this]
      rfl

/-- Witness for C6 at the demo wallet (token contract set, transfer amount
`"1000"`, fee percentage `0.2`, fee enabled, collector configured). -/
theorem c6_distribution_witness :
    c1DemoFee.enabled = true
    ∧ c1DemoFee.providerWalletAddress ≠ ""
    ∧ c1DemoFee.feePercentage = some (1 / 5)
    ∧ (0 : ℚ) ≤ 1 / 5
    ∧ jsTruthyStr c6DemoConfig.tokenContract = true
    ∧ 0 < distributorTotalAmount c6DemoConfig
    ∧ ∃ feeAmt netAmt : ℤ,
        feeAmt = bigIntDiv
          (distributorTotalAmount c6DemoConfig * jsRound ((1 / 5) * 1000)) 1000
        ∧ feeAmt = ⌊((distributorTotalAmount c6DemoConfig *
            jsRound ((1 / 5) * 1000) : ℤ) : ℚ) / 1000⌋
        ∧ netAmt = (if distributorTotalAmount c6DemoConfig > feeAmt then
            distributorTotalAmount c6DemoConfig - feeAmt else 0)
        ∧ distributeRecoveredTokens c1DemoFee c6DemoConfig
          = (if 0 < feeAmt then
              [⟨c6DemoConfig.tokenContract.getD "",
                c1DemoFee.providerWalletAddress, feeAmt⟩]
            else [])
            ++ (if 0 < netAmt then
              [⟨c6DemoConfig.tokenContract.getD "",
                c6DemoConfig.receiverAddress, netAmt⟩]
            else []) :=
  ⟨rfl, by decide, rfl, by norm_num, by decide, by decide,
    c6_distribution.1 c1DemoFee c6DemoConfig (1 / 5) rfl (by decide) rfl
      (by norm_num) (by decide) (by decide)⟩

end Antidrain
